import Mathlib

/-!
# Verification of the pocket-wayback-machine capture pipeline

Shallow embedding of the browser extension's service worker (`sw.ts`) and its
IndexedDB layer (`db.ts`): the URL policy, the wildcard-pattern compiler, the
content-dedup archive step, the navigation debounce state machine, the
dwell-timer continuation, and the visit purge.

Platform collaborators (the WHATWG URL parser, `setTimeout`/`clearTimeout`,
`chrome.tabs`, `crypto.subtle`, IndexedDB transactions) are modelled
explicitly: URL parsing is restricted to the scheme/host extraction the code
uses, timers become an explicit set of pending timer ids, fallible platform
calls become explicit outcome fields of an environment record, and each
storage transaction becomes a pure function on an explicit store value.
-/

namespace PW

open List

/-! ## Data model (`db.ts`) -/

/-- A persisted page snapshot (store `pages`, key `versionId`). -/
structure PageVersion where
  versionId : String
  url : String
  urlKey : String
  title : String
  capturedAt : Nat
  hash : String
  contentType : String
  html : String
  deriving DecidableEq, Repr

/-- A persisted visit record (store `visits`, key `visitId`).  `sw.ts`
adds `transitionType` and `tabId` on top of the `db.ts` interface. -/
structure Visit where
  visitId : String
  url : String
  urlKey : String
  visitAt : Nat
  transitionType : String
  tabId : Option Nat
  deriving DecidableEq, Repr

/-- The IndexedDB database `personal_wayback_db`: the two object stores. -/
structure DB where
  pages : List PageVersion
  visits : List Visit
  deriving DecidableEq, Repr

/-- `putPageVersion`: IndexedDB `put` = insert-or-replace keyed by `versionId`. -/
def putPageVersion (v : PageVersion) (db : DB) : DB :=
  if db.pages.any (fun p => p.versionId = v.versionId) then
    { db with pages := db.pages.map (fun p => if p.versionId = v.versionId then v else p) }
  else
    { db with pages := db.pages ++ [v] }

/-- `putVisit`: IndexedDB `put` = insert-or-replace keyed by `visitId`. -/
def putVisit (v : Visit) (db : DB) : DB :=
  if db.visits.any (fun w => w.visitId = v.visitId) then
    { db with visits := db.visits.map (fun w => if w.visitId = v.visitId then v else w) }
  else
    { db with visits := db.visits ++ [v] }

/-- `getVersionsByUrlKey`: read all pages whose `urlKey` matches, then sort by
`capturedAt` descending (`(a, b) => b.capturedAt - a.capturedAt`). -/
def getVersionsByUrlKey (urlKey : String) (db : DB) : List PageVersion :=
  List.insertionSort (fun a b => b.capturedAt ≤ a.capturedAt)
    (db.pages.filter (fun p => p.urlKey = urlKey))

/-- Membership in `IDBKeyRange.upperBound(cutoffMs, true)`: the open upper
bound admits exactly the keys strictly below the cutoff. -/
def inUpperBoundOpen (cutoffMs : Nat) (key : Nat) : Bool :=
  key < cutoffMs

/-- `purgeVisitsOlderThan`: a cursor over the `by_visitAt` index restricted to
`IDBKeyRange.upperBound(cutoffMs, true)` deletes every row it yields, i.e.
exactly the visits with `visitAt < cutoffMs`; the `pages` store is untouched. -/
def purgeVisitsOlderThan (cutoffMs : Nat) (db : DB) : DB :=
  { db with visits := db.visits.filter (fun v => ! inUpperBoundOpen cutoffMs v.visitAt) }

/-! ## Settings -/

/-- Normalized settings, as returned by `getSettings` (defaults applied). -/
structure Settings where
  enabled : Bool
  minStayMs : Nat
  disabledHosts : List String
  disabledUrlPatterns : List String
  deriving DecidableEq, Repr

/-! ## URL parsing (platform collaborator)

`sw.ts` only ever consults `new URL(url).protocol` and `new URL(url).host`.
We model the WHATWG parser's scheme extraction (ASCII-alpha start, then
alphanumeric / `+` / `-` / `.` up to the first `:`, lowercased) and, for
http(s)-shaped URLs, the authority component up to the first `/`, `?` or `#`. -/

def isAsciiAlpha (c : Char) : Bool :=
  ('a' ≤ c && c ≤ 'z') || ('A' ≤ c && c ≤ 'Z')

def isSchemeTailChar (c : Char) : Bool :=
  isAsciiAlpha c || ('0' ≤ c && c ≤ '9') || c = '+' || c = '-' || c = '.'

/-- Split a character list at the scheme terminator `:`; returns the
(lowercased) scheme characters and the remainder, or `none` when no
well-formed scheme prefix exists. -/
def splitScheme : List Char → List Char → Option (List Char × List Char)
  | acc, ':' :: rest => some (acc.reverse.map Char.toLower, rest)
  | acc, c :: rest => if isSchemeTailChar c then splitScheme (c :: acc) rest else none
  | _, [] => none

/-- The scheme of a URL (`new URL(url).protocol` without the trailing `:`),
`none` when parsing fails. -/
def urlScheme (url : String) : Option (List Char) :=
  match url.toList with
  | [] => none
  | c :: rest => if isAsciiAlpha c then (splitScheme [c] rest).map Prod.fst else none

/-- `isHttpUrl`: the URL parses and its protocol is `http:` or `https:`. -/
def isHttpUrl (url : String) : Bool :=
  match urlScheme url with
  | some s => s = "http".toList || s = "https".toList
  | none => false

/-- `hostOf`: `new URL(url).host` (authority up to the first `/`, `?` or `#`,
lowercased), or `""` when parsing fails. -/
def hostOf (url : String) : String :=
  match url.toList with
  | [] => ""
  | c :: rest =>
    if isAsciiAlpha c then
      match splitScheme [c] rest with
      | some (_, '/' :: '/' :: after) =>
        String.mk ((after.takeWhile (fun x => x ≠ '/' && x ≠ '?' && x ≠ '#')).map Char.toLower)
      | _ => ""
    else ""

/-- `toUrlKey`: identity — the exact URL including query and fragment. -/
def toUrlKey (url : String) : String := url

/-! ## Wildcard pattern compilation (`wildcardToRegExp`, `urlMatchesPatterns`)

`wildcardToRegExp` builds a JavaScript regex string and hands it to
`new RegExp`, and `urlMatchesPatterns` calls `.test` inside a `try` that
drops patterns whose compilation throws.  We model the exact string
transformations the code performs and the ECMAScript regex semantics on the
fragment those transformations can produce: literal characters, `\m` escapes
of the metacharacters the code escapes, `.` atoms, and postfix `*`
quantifiers, anchored at both ends.  `new RegExp` rejects a quantifier with
nothing to repeat (a `*` at the start of the body, after another quantifier,
or after a dangling `\`), which the parser models by returning `none`. -/

/-- The character class of `pattern.replace(/[.+?^${}()|[\]\\]/g, "\\$&")`:
every regex metacharacter except `*`. -/
def regexMetaChars : List Char :=
  ['.', '+', '?', '^', '$', '{', '}', '(', ')', '|', '[', ']', '\\']

/-- First replacement: prefix every character of the metacharacter class
with a backslash. -/
def escapeMeta : List Char → List Char
  | [] => []
  | c :: rest =>
    if c ∈ regexMetaChars then '\\' :: c :: escapeMeta rest
    else c :: escapeMeta rest

/-- Second replacement, `.replace(/\\\*/g, ".*")`: left-to-right,
non-overlapping rewriting of each two-character `\*` occurrence to `.*`. -/
def replaceEscStar : List Char → List Char
  | '\\' :: '*' :: rest => '.' :: '*' :: replaceEscStar rest
  | c :: rest => c :: replaceEscStar rest
  | [] => []

/-- One item of the compiled (anchored) regex body: a literal character, the
any-character atom `.`, or either of those under a `*` quantifier. -/
inductive RItem where
  | lit (c : Char)
  | dot
  | litStar (c : Char)
  | dotStar
  deriving DecidableEq, Repr

/-- ECMAScript regex parsing of the body between the `^`/`$` anchors, for the
fragment reachable from `wildcardToRegExp`.  `none` models the `SyntaxError`
`new RegExp` throws when a `*` has nothing to repeat or a `\` ends the body. -/
def parseRegexBody : List Char → Option (List RItem)
  | [] => some []
  | '*' :: _ => none
  | '\\' :: [] => none
  | '\\' :: c :: '*' :: rest => (parseRegexBody rest).map (RItem.litStar c :: ·)
  | '\\' :: c :: rest => (parseRegexBody rest).map (RItem.lit c :: ·)
  | '.' :: '*' :: rest => (parseRegexBody rest).map (RItem.dotStar :: ·)
  | '.' :: rest => (parseRegexBody rest).map (RItem.dot :: ·)
  | c :: '*' :: rest => (parseRegexBody rest).map (RItem.litStar c :: ·)
  | c :: rest => (parseRegexBody rest).map (RItem.lit c :: ·)

/-- ECMAScript line terminators, which `.` does not match. -/
def isLineTerminator (c : Char) : Bool :=
  c = '\n' || c = '\r' || c = ' ' || c = ' '

/-- Full-string matching of a parsed body against the input (the compiled
regex is anchored at both ends, so `.test` is whole-string acceptance). -/
def rmatch : List RItem → List Char → Bool
  | [], [] => true
  | [], _ :: _ => false
  | RItem.lit _ :: _, [] => false
  | RItem.lit c :: items, x :: xs => x = c && rmatch items xs
  | RItem.dot :: _, [] => false
  | RItem.dot :: items, x :: xs => ! isLineTerminator x && rmatch items xs
  | RItem.litStar c :: items, xs =>
    rmatch items xs ||
      (match xs with
       | [] => false
       | x :: xs2 => x = c && rmatch (RItem.litStar c :: items) xs2)
  | RItem.dotStar :: items, xs =>
    rmatch items xs ||
      (match xs with
       | [] => false
       | x :: xs2 => ! isLineTerminator x && rmatch (RItem.dotStar :: items) xs2)
  termination_by items xs => (xs.length, items.length)

/-- `wildcardToRegExp`: escape the metacharacter class, rewrite `\*` pairs to
`.*`, wrap in `^...$`, and parse; `none` when `new RegExp` would throw. -/
def wildcardToRegExp (pattern : String) : Option (List RItem) :=
  parseRegexBody (replaceEscStar (escapeMeta pattern.toList))

/-- `urlMatchesPatterns`: first pattern whose compiled regex matches wins;
a pattern whose compilation throws is skipped (the `try`/`catch` with a
warning). -/
def urlMatchesPatterns (url : String) (patterns : List String) : Bool :=
  patterns.any fun p =>
    match wildcardToRegExp p with
    | none => false
    | some items => rmatch items url.toList

/-! ## URL policy (`shouldArchiveUrl`) -/

/-- `shouldArchiveUrl`: http(s) only, global enable flag, exact-host
denylist, then wildcard pattern denylist (only consulted when non-empty). -/
def shouldArchiveUrl (settings : Settings) (url : String) : Bool :=
  if ! isHttpUrl url then false
  else if ! settings.enabled then false
  else if hostOf url ≠ "" && settings.disabledHosts.contains (hostOf url) then false
  else if ! settings.disabledUrlPatterns.isEmpty &&
          urlMatchesPatterns url settings.disabledUrlPatterns then false
  else true

/-! ## Navigation debounce state machine (`sw.ts`)

The per-tab maps `navByTab` and `erroredTabUrl` become functions to `Option`;
the `setTimeout`/`clearTimeout` resource becomes an explicit list of pending
timer ids (the platform hands out a fresh positive id at each `setTimeout`).
Each `chrome.webNavigation` listener becomes a pure transition function. -/

/-- One entry of `navByTab`. -/
structure NavState where
  url : String
  completedAt : Nat
  errored : Bool
  timerId : Nat
  deriving DecidableEq, Repr

/-- The service worker's ephemeral state plus the pending-timer resource. -/
structure SWState where
  navByTab : Nat → Option NavState
  erroredTabUrl : Nat → Option String
  pendingTimers : List Nat

/-- The fields of a `chrome.webNavigation` event the listeners consult. -/
structure NavEvent where
  tabId : Nat
  url : String
  frameId : Nat
  deriving DecidableEq, Repr

/-- `clearTabState`: cancel the tab's timer when one is tracked (the code
guards on the truthiness of `st?.timerId`, so a zero handle is not
cancelled), then delete both map entries. -/
def clearTabState (tabId : Nat) (s : SWState) : SWState :=
  let pending :=
    match s.navByTab tabId with
    | some st => if st.timerId ≠ 0 then s.pendingTimers.filter (· ≠ st.timerId)
                 else s.pendingTimers
    | none => s.pendingTimers
  { navByTab := fun t => if t = tabId then none else s.navByTab t
    erroredTabUrl := fun t => if t = tabId then none else s.erroredTabUrl t
    pendingTimers := pending }

/-- The `onCommitted` listener: ignore sub-frames, ignore non-http(s) URLs,
otherwise clear the tab's state. -/
def onCommitted (ev : NavEvent) (s : SWState) : SWState :=
  if ev.frameId ≠ 0 then s
  else if ! isHttpUrl ev.url then s
  else clearTabState ev.tabId s

/-- The `onErrorOccurred` listener: ignore sub-frames, otherwise record the
tab's last errored URL (no http(s) filter here). -/
def onErrorOccurred (ev : NavEvent) (s : SWState) : SWState :=
  if ev.frameId ≠ 0 then s
  else { s with erroredTabUrl := fun t => if t = ev.tabId then some ev.url else s.erroredTabUrl t }

/-- The dwell timer a completion schedules: id, owning tab, the URL captured
at scheduling time, and the delay read from settings at completion time. -/
structure TimerSpec where
  timerId : Nat
  tabId : Nat
  url : String
  delayMs : Nat
  deriving DecidableEq, Repr

/-- The `onCompleted` listener up to its suspension points: `settings` is the
awaited `getSettings()` result, `newTimerId` the handle `setTimeout` returns,
`now` the completion timestamp.  Returns the new state and the scheduled
timer, if any; the listener itself performs no storage writes. -/
def onCompleted (settings : Settings) (ev : NavEvent) (newTimerId : Nat) (now : Nat)
    (s : SWState) : SWState × Option TimerSpec :=
  if ev.frameId ≠ 0 then (s, none)
  else if ! isHttpUrl ev.url then (s, none)
  else if s.erroredTabUrl ev.tabId = some ev.url then (clearTabState ev.tabId s, none)
  else if ! shouldArchiveUrl settings ev.url then (clearTabState ev.tabId s, none)
  else
    ({ navByTab := fun t =>
         if t = ev.tabId then some ⟨ev.url, now, false, newTimerId⟩ else s.navByTab t
       erroredTabUrl := s.erroredTabUrl
       pendingTimers := newTimerId :: s.pendingTimers },
     some ⟨newTimerId, ev.tabId, ev.url, settings.minStayMs⟩)

/-- The `tabs.onRemoved` listener. -/
def onTabRemoved (tabId : Nat) (s : SWState) : SWState :=
  clearTabState tabId s

/-! ## The dwell-timer continuation

All awaited collaborator outcomes are inputs: the `chrome.tabs.get` result,
the settings read inside `shouldArchiveUrl` at fire time, the snapshot
capture outcome, the digest function (SHA-256), the fresh UUIDs, the clock,
and the success of each storage transaction (a failed IndexedDB transaction
rejects without writing, which the `catch` in the timer body absorbs). -/

/-- What `captureTabSnapshot` delivers on success. -/
structure Snapshot where
  title : String
  html : String
  deriving DecidableEq, Repr

/-- The environment a single timer firing observes. -/
structure FireEnv where
  /-- `chrome.tabs.get(tabId)?.url`; `none` when the call throws (tab gone)
  or the tab has no URL. -/
  tabUrl : Option String
  /-- Settings as read (again) at fire time. -/
  settings : Settings
  /-- `captureTabSnapshot` outcome; `none` when it throws. -/
  capture : Option Snapshot
  /-- `sha256Hex` on the captured markup. -/
  hashOf : String → String
  visitId : String
  versionId : String
  now : Nat
  putVisitOk : Bool
  purgeOk : Bool
  putVersionOk : Bool

/-- 30 days in milliseconds (`DAYS_30_MS`). -/
def DAYS30MS : Nat := 30 * 24 * 60 * 60 * 1000

/-- The visit record `logVisit` constructs. -/
def visitRecord (env : FireEnv) (tabId : Nat) (url : String) : Visit :=
  ⟨env.visitId, url, toUrlKey url, env.now, "", some tabId⟩

/-- Result of `logVisit`: the store afterwards, whether the visit row was
appended, and whether the whole call returned (rather than rejecting). -/
structure VisitOutcome where
  db : DB
  appended : Bool
  ok : Bool
  deriving Repr

/-- `logVisit`: append the visit, then purge everything older than 30 days.
A rejected `putVisit` writes nothing; a rejected purge leaves the appended
visit in place and propagates as an exception. -/
def logVisit (env : FireEnv) (tabId : Nat) (url : String) (db : DB) : VisitOutcome :=
  if ! env.putVisitOk then ⟨db, false, false⟩
  else
    let db1 := putVisit (visitRecord env tabId url) db
    if ! env.purgeOk then ⟨db1, true, false⟩
    else ⟨purgeVisitsOlderThan (env.now - DAYS30MS) db1, true, true⟩

/-- Result of `archiveIfChanged`: the store afterwards, whether a new
version was stored, whether a capture was attempted, and whether the call
returned (rather than rejecting in `putPageVersion`). -/
structure ArchiveOutcome where
  db : DB
  stored : Bool
  captureAttempted : Bool
  ok : Bool
  deriving Repr

/-- `archiveIfChanged`: re-check the URL policy against current settings;
capture (its failure is caught and skips the attempt); hash; compare with
the newest stored version for the URL key; store only on change. -/
def archiveIfChanged (env : FireEnv) (url : String) (db : DB) : ArchiveOutcome :=
  if ! shouldArchiveUrl env.settings url then ⟨db, false, false, true⟩
  else
    match env.capture with
    | none => ⟨db, false, true, true⟩
    | some snap =>
      let urlKey := toUrlKey url
      let hash := env.hashOf snap.html
      let latest := (getVersionsByUrlKey urlKey db).head?
      if latest.map PageVersion.hash = some hash then ⟨db, false, true, true⟩
      else if env.putVersionOk then
        ⟨putPageVersion ⟨env.versionId, url, urlKey, snap.title, env.now, hash,
                         "text/html", snap.html⟩ db,
         true, true, true⟩
      else ⟨db, false, true, false⟩

/-- Result of one timer firing. -/
structure FireOutcome where
  state : SWState
  db : DB
  visitAppended : Bool
  versionStored : Bool
  captureAttempted : Bool

/-- The timer callback scheduled by `onCompleted`: re-validate the tab's
current URL against the URL captured at scheduling time; on match, log the
visit (append + purge) and then attempt the archive step; any rejection is
caught; the `finally` clause clears the tab's state on every exit path. -/
def timerFire (env : FireEnv) (tabId : Nat) (url : String) (s : SWState) (db : DB) :
    FireOutcome :=
  let cleared := clearTabState tabId s
  match env.tabUrl with
  | none => ⟨cleared, db, false, false, false⟩
  | some cur =>
    if cur = "" ∨ cur ≠ url then ⟨cleared, db, false, false, false⟩
    else
      let lv := logVisit env tabId url db
      if ! lv.ok then ⟨cleared, lv.db, lv.appended, false, false⟩
      else
        let ar := archiveIfChanged env url lv.db
        ⟨cleared, ar.db, lv.appended, ar.stored, ar.captureAttempted⟩

/-! ## Popup command surface: `PW_TOGGLE_HOST`

The handler computes `hostOf(url)` (platform URL parser), rebuilds the host
denylist through a JavaScript `Set` (deduplication keeping first
occurrences, deletion, insertion at the end) and re-sorts it. -/

/-- JavaScript `new Set(list)` read back out via `forEach`: the list with
duplicates removed, keeping the first occurrence of each element. -/
def dedupFirst : List String → List String
  | [] => []
  | a :: l => a :: dedupFirst (l.filter (· ≠ a))
  termination_by l => l.length
  decreasing_by
    simp only [List.length_cons]
    exact Nat.lt_succ_of_le (List.length_filter_le _ _)

/-- The `PW_TOGGLE_HOST` handler, given the host the platform parser derived
from the message URL (`""` when parsing failed): toggle membership when the
host is non-empty, then store the array sorted (`Array.prototype.sort`). -/
def handleToggleHost (host : String) (s : Settings) : Settings :=
  let set0 := dedupFirst s.disabledHosts
  let set1 :=
    if host = "" then set0
    else if host ∈ set0 then set0.erase host
    else set0 ++ [host]
  { s with disabledHosts := List.insertionSort (· ≤ ·) set1 }

/-! ## Helper lemmas -/

theorem putVisit_pages (v : Visit) (db : DB) : (putVisit v db).pages = db.pages := by
  unfold putVisit
  split <;> rfl

theorem putVisit_mem (v : Visit) (db : DB) : v ∈ (putVisit v db).visits := by
  unfold putVisit
  split
  · next h =>
    rcases List.any_eq_true.mp h with ⟨w, hw, hww⟩
    exact List.mem_map.mpr ⟨w, hw, by simp [of_decide_eq_true hww]⟩
  · exact List.mem_append_right _ (List.mem_singleton.mpr rfl)

theorem purge_pages (cutoffMs : Nat) (db : DB) :
    (purgeVisitsOlderThan cutoffMs db).pages = db.pages := rfl

theorem logVisit_pages (env : FireEnv) (tabId : Nat) (url : String) (db : DB) :
    (logVisit env tabId url db).db.pages = db.pages := by
  unfold logVisit
  split
  · rfl
  · split
    · exact putVisit_pages _ _
    · rw [purge_pages, putVisit_pages]

theorem logVisit_mem (env : FireEnv) (tabId : Nat) (url : String) (db : DB)
    (hv : env.putVisitOk = true) :
    visitRecord env tabId url ∈ (logVisit env tabId url db).db.visits := by
  unfold logVisit
  rw [hv]
  simp only [Bool.not_true, Bool.false_eq_true, if_false]
  split
  · exact putVisit_mem _ _
  · refine List.mem_filter.mpr ⟨putVisit_mem _ _, ?_⟩
    simp [inUpperBoundOpen, visitRecord, Nat.not_lt.mpr (Nat.sub_le _ _)]

theorem getVersionsByUrlKey_congr (k : String) (db1 db2 : DB)
    (h : db1.pages = db2.pages) :
    getVersionsByUrlKey k db1 = getVersionsByUrlKey k db2 := by
  unfold getVersionsByUrlKey
  rw [h]

theorem clearTabState_navByTab (tabId : Nat) (s : SWState) :
    (clearTabState tabId s).navByTab tabId = none := by
  simp [clearTabState]

theorem clearTabState_erroredTabUrl (tabId : Nat) (s : SWState) :
    (clearTabState tabId s).erroredTabUrl tabId = none := by
  simp [clearTabState]

theorem timerFire_state (env : FireEnv) (tabId : Nat) (url : String) (s : SWState)
    (db : DB) : (timerFire env tabId url s db).state = clearTabState tabId s := by
  unfold timerFire
  split
  · rfl
  · split
    · rfl
    · by_cases hok : (logVisit env tabId url db).ok <;> simp [hok]

/-! ## Example values used by witnesses and counterexamples -/

/-- A quiescent service-worker state. -/
def emptySWState : SWState := ⟨fun _ => none, fun _ => none, []⟩

/-- Default settings, as normalized by `getSettings` on first run. -/
def defaultSettings : Settings := ⟨true, 2000, [], []⟩

/-- A tab-1 state holding a pending dwell timer (id 7) and an errored-URL
entry, as left by an earlier navigation. -/
def busyTabState : SWState :=
  ⟨fun t => if t = 1 then some ⟨"https://example.com/", 0, false, 7⟩ else none,
   fun t => if t = 1 then some "https://example.com/" else none,
   [7]⟩

/-- A tab-5 state holding a pending dwell timer (id 9) from an earlier
navigation and no errored-URL entry. -/
def staleTabState : SWState :=
  ⟨fun t => if t = 5 then some ⟨"https://old.example/", 0, false, 9⟩ else none,
   fun _ => none, [9]⟩

/-! ## C1 — Commit clears tab state -/

/-- **C1** (counterexample): a top-level-frame Commit whose URL is
`chrome://newtab/` leaves the tab's pending dwell timer, its `navByTab`
entry and its `erroredTabUrl` entry all untouched — the `onCommitted`
listener returns before `clearTabState` when `isHttpUrl` is false, so the
claimed behaviour "regardless of the committed URL" fails. -/
theorem commit_nonhttp_preserves_state :
    (onCommitted ⟨1, "chrome://newtab/", 0⟩ busyTabState).navByTab 1 =
        some ⟨"https://example.com/", 0, false, 7⟩ ∧
    (onCommitted ⟨1, "chrome://newtab/", 0⟩ busyTabState).erroredTabUrl 1 =
        some "https://example.com/" ∧
    7 ∈ (onCommitted ⟨1, "chrome://newtab/", 0⟩ busyTabState).pendingTimers := by
  decide

/-- **C1** (amended): for every prior per-tab state, a top-level-frame Commit
event whose URL is http(s) cancels the tab's pending dwell timer (the code
only calls `clearTimeout` on a truthy, i.e. nonzero, handle) and clears both
the `navByTab` and the `erroredTabUrl` entry; Commit events with
non-http(s) URLs are ignored. -/
theorem commit_http_clears_state (s : SWState) (tabId : Nat) (url : String)
    (h : isHttpUrl url = true) :
    (onCommitted ⟨tabId, url, 0⟩ s).navByTab tabId = none ∧
    (onCommitted ⟨tabId, url, 0⟩ s).erroredTabUrl tabId = none ∧
    (∀ st, s.navByTab tabId = some st → st.timerId ≠ 0 →
      st.timerId ∉ (onCommitted ⟨tabId, url, 0⟩ s).pendingTimers) := by
  have hred : onCommitted ⟨tabId, url, 0⟩ s = clearTabState tabId s := by
    unfold onCommitted
    simp [h]
  rw [hred]
  refine ⟨clearTabState_navByTab _ _, clearTabState_erroredTabUrl _ _, ?_⟩
  intro st hst hid
  unfold clearTabState
  simp [hst, hid]

/-- **C1** witness: the amended Commit theorem applied at tab 1, the http(s)
URL `https://other.example/`, and a state holding pending timer 7. -/
theorem commit_http_clears_state_witness :
    (onCommitted ⟨1, "https://other.example/", 0⟩ busyTabState).navByTab 1 = none ∧
    (onCommitted ⟨1, "https://other.example/", 0⟩ busyTabState).erroredTabUrl 1 = none ∧
    (∀ st, busyTabState.navByTab 1 = some st → st.timerId ≠ 0 →
      st.timerId ∉ (onCommitted ⟨1, "https://other.example/", 0⟩ busyTabState).pendingTimers) :=
  commit_http_clears_state busyTabState 1 "https://other.example/" (by decide)

/-! ## C3 — Completion after Error for the same pair -/

/-- **C3** (counterexample): an Error followed by a Completion for the same
exact `(tabId, url)` pair with the non-http(s) URL `ftp://example.com/`
schedules no timer, but does *not* clear the tab's tracked state: the
Completion listener returns at its `isHttpUrl` guard before the errored-pair
check, so both the `navByTab` entry and the just-recorded `erroredTabUrl`
entry survive. -/
theorem completion_after_error_nonhttp_keeps_state :
    (onCompleted defaultSettings ⟨5, "ftp://example.com/", 0⟩ 11 50
        (onErrorOccurred ⟨5, "ftp://example.com/", 0⟩ staleTabState)).2 = none ∧
    ((onCompleted defaultSettings ⟨5, "ftp://example.com/", 0⟩ 11 50
        (onErrorOccurred ⟨5, "ftp://example.com/", 0⟩ staleTabState)).1).navByTab 5 =
      some ⟨"https://old.example/", 0, false, 9⟩ ∧
    ((onCompleted defaultSettings ⟨5, "ftp://example.com/", 0⟩ 11 50
        (onErrorOccurred ⟨5, "ftp://example.com/", 0⟩ staleTabState)).1).erroredTabUrl 5 =
      some "ftp://example.com/" := by
  decide

/-- **C3** (amended): for every tab and every http(s) URL, a top-level-frame
Completion event immediately preceded by an Error event for the same exact
`(tabId, url)` pair clears the tab's tracked state (both map entries),
schedules no dwell timer, and hence leads to zero storage writes for that
completion (all writes happen only inside a scheduled timer's callback). -/
theorem completion_after_error_http_clears (s : SWState) (settings : Settings)
    (tabId tId now : Nat) (url : String) (h : isHttpUrl url = true) :
    ((onCompleted settings ⟨tabId, url, 0⟩ tId now
        (onErrorOccurred ⟨tabId, url, 0⟩ s)).1).navByTab tabId = none ∧
    ((onCompleted settings ⟨tabId, url, 0⟩ tId now
        (onErrorOccurred ⟨tabId, url, 0⟩ s)).1).erroredTabUrl tabId = none ∧
    (onCompleted settings ⟨tabId, url, 0⟩ tId now
        (onErrorOccurred ⟨tabId, url, 0⟩ s)).2 = none := by
  have herr : (onErrorOccurred ⟨tabId, url, 0⟩ s).erroredTabUrl tabId = some url := by
    unfold onErrorOccurred
    simp
  have hred : onCompleted settings ⟨tabId, url, 0⟩ tId now
      (onErrorOccurred ⟨tabId, url, 0⟩ s)
      = (clearTabState tabId (onErrorOccurred ⟨tabId, url, 0⟩ s), none) := by
    unfold onCompleted
    simp [h, herr]
  rw [hred]
  exact ⟨clearTabState_navByTab _ _, clearTabState_erroredTabUrl _ _, rfl⟩

/-- **C3** witness: the amended Error-then-Completion theorem applied at
tab 5 and the http(s) URL `https://example.com/a?q=1`. -/
theorem completion_after_error_http_clears_witness :
    ((onCompleted defaultSettings ⟨5, "https://example.com/a?q=1", 0⟩ 11 50
        (onErrorOccurred ⟨5, "https://example.com/a?q=1", 0⟩ staleTabState)).1).navByTab 5 = none ∧
    ((onCompleted defaultSettings ⟨5, "https://example.com/a?q=1", 0⟩ 11 50
        (onErrorOccurred ⟨5, "https://example.com/a?q=1", 0⟩ staleTabState)).1).erroredTabUrl 5 = none ∧
    (onCompleted defaultSettings ⟨5, "https://example.com/a?q=1", 0⟩ 11 50
        (onErrorOccurred ⟨5, "https://example.com/a?q=1", 0⟩ staleTabState)).2 = none :=
  completion_after_error_http_clears staleTabState defaultSettings 5 11 50
    "https://example.com/a?q=1" (by decide)

/-! ## More helper lemmas about the timer continuation -/

theorem logVisit_eq_of_ok (env : FireEnv) (tabId : Nat) (url : String) (db : DB)
    (hv : env.putVisitOk = true) (hp : env.purgeOk = true) :
    logVisit env tabId url db =
      ⟨purgeVisitsOlderThan (env.now - DAYS30MS) (putVisit (visitRecord env tabId url) db),
       true, true⟩ := by
  unfold logVisit
  rw [hv, hp]
  simp

theorem logVisit_appended_eq (env : FireEnv) (tabId : Nat) (url : String) (db : DB) :
    (logVisit env tabId url db).appended = env.putVisitOk := by
  rcases h : env.putVisitOk <;> rcases h2 : env.purgeOk <;> simp [logVisit, h, h2]

theorem logVisit_ok_eq (env : FireEnv) (tabId : Nat) (url : String) (db : DB) :
    (logVisit env tabId url db).ok = (env.putVisitOk && env.purgeOk) := by
  rcases h : env.putVisitOk <;> rcases h2 : env.purgeOk <;> simp [logVisit, h, h2]

theorem timerFire_proceed (env : FireEnv) (tabId : Nat) (url : String) (s : SWState)
    (db : DB) (ht : env.tabUrl = some url) (hu : url ≠ "") :
    timerFire env tabId url s db =
      (let lv := logVisit env tabId url db
       if ! lv.ok then
         ⟨clearTabState tabId s, lv.db, lv.appended, false, false⟩
       else
         let ar := archiveIfChanged env url lv.db
         ⟨clearTabState tabId s, ar.db, lv.appended, ar.stored, ar.captureAttempted⟩) := by
  unfold timerFire
  rw [ht]
  simp [hu]

theorem archive_eq_dup (env : FireEnv) (url : String) (db2 : DB) (snap : Snapshot)
    (hc : env.capture = some snap)
    (hdup : (getVersionsByUrlKey (toUrlKey url) db2).head?.map PageVersion.hash
        = some (env.hashOf snap.html)) :
    archiveIfChanged env url db2 = ⟨db2, false, shouldArchiveUrl env.settings url, true⟩ := by
  unfold archiveIfChanged
  rcases hs : shouldArchiveUrl env.settings url <;> simp [hs, hc, hdup]

theorem archive_eq_new (env : FireEnv) (url : String) (db2 : DB) (snap : Snapshot)
    (hs : shouldArchiveUrl env.settings url = true)
    (hc : env.capture = some snap) (hw : env.putVersionOk = true)
    (hnodup : ¬ (getVersionsByUrlKey (toUrlKey url) db2).head?.map PageVersion.hash
        = some (env.hashOf snap.html)) :
    archiveIfChanged env url db2 =
      ⟨putPageVersion ⟨env.versionId, url, toUrlKey url, snap.title, env.now,
          env.hashOf snap.html, "text/html", snap.html⟩ db2,
       true, true, true⟩ := by
  unfold archiveIfChanged
  simp [hs, hc, hnodup, hw]

theorem archive_skip_policy (env : FireEnv) (url : String) (db2 : DB)
    (hs : shouldArchiveUrl env.settings url = false) :
    archiveIfChanged env url db2 = ⟨db2, false, false, true⟩ := by
  unfold archiveIfChanged
  simp [hs]

/-- Exhaustive case analysis of a timer firing: either it aborted before
touching storage, or it stopped after `logVisit` rejected, or it ran the
archive step on the post-visit store. -/
theorem timerFire_eq_cases (env : FireEnv) (tabId : Nat) (url : String) (s : SWState)
    (db : DB) :
    timerFire env tabId url s db = ⟨clearTabState tabId s, db, false, false, false⟩ ∨
    ((logVisit env tabId url db).ok = false ∧
      timerFire env tabId url s db =
        ⟨clearTabState tabId s, (logVisit env tabId url db).db,
         (logVisit env tabId url db).appended, false, false⟩) ∨
    ((logVisit env tabId url db).ok = true ∧
      timerFire env tabId url s db =
        ⟨clearTabState tabId s, (archiveIfChanged env url (logVisit env tabId url db).db).db,
         (logVisit env tabId url db).appended,
         (archiveIfChanged env url (logVisit env tabId url db).db).stored,
         (archiveIfChanged env url (logVisit env tabId url db).db).captureAttempted⟩) := by
  unfold timerFire
  cases henv : env.tabUrl with
  | none => exact Or.inl rfl
  | some cur =>
    dsimp only
    by_cases hif : cur = "" ∨ cur ≠ url
    · rw [if_pos hif]
      exact Or.inl rfl
    · rw [if_neg hif]
      rcases hok : (logVisit env tabId url db).ok with _ | _
      · exact Or.inr (Or.inl ⟨rfl, by simp⟩)
      · exact Or.inr (Or.inr ⟨rfl, by simp⟩)

/-! ## C4 — Timer-fire re-validation and guaranteed cleanup -/

/-- **C4**: when the dwell timer fires, if the tab is unreachable
(`chrome.tabs.get` throws or yields no URL) or the tab's current URL differs
from the URL captured at scheduling time, the continuation aborts with zero
storage writes — the store is returned unchanged, no visit is appended and
no version is stored; and on *every* exit path (mismatch abort, success, or
a caught rejection of any storage call) the tab's tracked state is cleared
by the finally-equivalent step. -/
theorem timer_fire_abort_and_cleanup (env : FireEnv) (tabId : Nat) (url : String)
    (s : SWState) (db : DB) :
    ((env.tabUrl = none ∨ ∀ cur, env.tabUrl = some cur → cur ≠ url) →
      (timerFire env tabId url s db).db = db ∧
      (timerFire env tabId url s db).visitAppended = false ∧
      (timerFire env tabId url s db).versionStored = false ∧
      (timerFire env tabId url s db).captureAttempted = false) ∧
    (timerFire env tabId url s db).state.navByTab tabId = none ∧
    (timerFire env tabId url s db).state.erroredTabUrl tabId = none := by
  refine ⟨?_, ?_, ?_⟩
  · intro habort
    unfold timerFire
    cases henv : env.tabUrl with
    | none => exact ⟨rfl, rfl, rfl, rfl⟩
    | some cur =>
      have hne : cur ≠ url := by
        rcases habort with h | h
        · rw [henv] at h
          exact absurd h (by simp)
        · exact h cur henv
      dsimp only
      rw [if_pos (Or.inr hne)]
      exact ⟨rfl, rfl, rfl, rfl⟩
  · rw [timerFire_state]
    exact clearTabState_navByTab _ _
  · rw [timerFire_state]
    exact clearTabState_erroredTabUrl _ _

/-- A fire-time environment in which the tab is gone. -/
def goneTabEnv : FireEnv :=
  ⟨none, defaultSettings, none, id, "visit-1", "version-1", 1000, true, true, true⟩

/-- **C4** witness: the abort/cleanup theorem at a concrete environment whose
tab lookup fails, discharging the abort hypothesis. -/
theorem timer_fire_abort_and_cleanup_witness :
    (timerFire goneTabEnv 1 "https://example.com/" busyTabState ⟨[], []⟩).db = ⟨[], []⟩ ∧
    (timerFire goneTabEnv 1 "https://example.com/" busyTabState ⟨[], []⟩).state.navByTab 1
      = none :=
  ⟨((timer_fire_abort_and_cleanup goneTabEnv 1 "https://example.com/" busyTabState
      ⟨[], []⟩).1 (Or.inl rfl)).1,
   (timer_fire_abort_and_cleanup goneTabEnv 1 "https://example.com/" busyTabState
      ⟨[], []⟩).2.1⟩

/-! ## C5 — Visit append and purge precede the capture attempt -/

/-- **C5**: in every timer-fire sequence a capture is attempted only after
the visit append and the 30-day purge both completed (a capture attempt
implies the visit row was appended and both storage calls succeeded); a
`PageVersion` is never stored in a sequence whose visit append did not
succeed first; and conversely, when the capture succeeds but yields
duplicate content (hash equal to the newest stored version for the URL key)
the visit row is still recorded while no new version is stored. -/
theorem visit_precedes_capture (env : FireEnv) (tabId : Nat) (url : String)
    (s : SWState) (db : DB) :
    ((timerFire env tabId url s db).captureAttempted = true →
      (timerFire env tabId url s db).visitAppended = true ∧
      env.putVisitOk = true ∧ env.purgeOk = true) ∧
    ((timerFire env tabId url s db).versionStored = true →
      (timerFire env tabId url s db).visitAppended = true) ∧
    (∀ snap : Snapshot, env.tabUrl = some url → url ≠ "" →
      env.putVisitOk = true → env.purgeOk = true → env.capture = some snap →
      (getVersionsByUrlKey (toUrlKey url) db).head?.map PageVersion.hash
          = some (env.hashOf snap.html) →
      (timerFire env tabId url s db).versionStored = false ∧
      (timerFire env tabId url s db).visitAppended = true ∧
      visitRecord env tabId url ∈ (timerFire env tabId url s db).db.visits) := by
  refine ⟨?_, ?_, ?_⟩
  · intro hca
    rcases timerFire_eq_cases env tabId url s db with h | ⟨_, h⟩ | ⟨hok, h⟩
    · rw [h] at hca
      exact absurd hca (by simp)
    · rw [h] at hca
      exact absurd hca (by simp)
    · have hboth := (Bool.and_eq_true _ _).mp ((logVisit_ok_eq env tabId url db) ▸ hok)
      rw [h]
      exact ⟨(logVisit_appended_eq env tabId url db).trans hboth.1, hboth.1, hboth.2⟩
  · intro hvs
    rcases timerFire_eq_cases env tabId url s db with h | ⟨_, h⟩ | ⟨hok, h⟩
    · rw [h] at hvs
      exact absurd hvs (by simp)
    · rw [h] at hvs
      exact absurd hvs (by simp)
    · have hboth := (Bool.and_eq_true _ _).mp ((logVisit_ok_eq env tabId url db) ▸ hok)
      rw [h]
      exact (logVisit_appended_eq env tabId url db).trans hboth.1
  · intro snap ht hu hv hp hc hdup
    have h := timerFire_proceed env tabId url s db ht hu
    rw [logVisit_eq_of_ok env tabId url db hv hp] at h
    dsimp only at h
    have hpages : (purgeVisitsOlderThan (env.now - DAYS30MS)
        (putVisit (visitRecord env tabId url) db)).pages = db.pages := by
      rw [purge_pages, putVisit_pages]
    have hdup2 : (getVersionsByUrlKey (toUrlKey url)
        (purgeVisitsOlderThan (env.now - DAYS30MS)
          (putVisit (visitRecord env tabId url) db))).head?.map PageVersion.hash
        = some (env.hashOf snap.html) := by
      rw [getVersionsByUrlKey_congr _ _ db hpages]
      exact hdup
    rw [archive_eq_dup env url _ snap hc hdup2] at h
    rw [h]
    refine ⟨rfl, rfl, ?_⟩
    have hm := logVisit_mem env tabId url db hv
    rw [logVisit_eq_of_ok env tabId url db hv hp] at hm
    exact hm

/-- A duplicate-content fire-time environment: the capture returns the same
markup whose digest is already the newest stored version's hash (the digest
function is taken to be the identity for concreteness). -/
def dupEnv : FireEnv :=
  ⟨some "https://example.com/", defaultSettings, some ⟨"T", "<html>A</html>"⟩, id,
   "visit-2", "version-2", 2000, true, true, true⟩

/-- A store already holding a version of `https://example.com/` whose hash is
`"<html>A</html>"` (identity digest of the same markup). -/
def dupDB : DB :=
  ⟨[⟨"version-0", "https://example.com/", "https://example.com/", "T", 100,
     "<html>A</html>", "text/html", "<html>A</html>"⟩], []⟩

/-- **C5** witness: the ordering theorem's duplicate-content conjunct at a
concrete environment and store, discharging every hypothesis. -/
theorem visit_precedes_capture_witness :
    (timerFire dupEnv 1 "https://example.com/" staleTabState dupDB).versionStored = false ∧
    (timerFire dupEnv 1 "https://example.com/" staleTabState dupDB).visitAppended = true ∧
    visitRecord dupEnv 1 "https://example.com/" ∈
      (timerFire dupEnv 1 "https://example.com/" staleTabState dupDB).db.visits :=
  (visit_precedes_capture dupEnv 1 "https://example.com/" staleTabState dupDB).2.2
    ⟨"T", "<html>A</html>"⟩ rfl (by decide) rfl rfl rfl (by decide)

/-! ## C2 — Content-hash deduplication -/

/-- **C2**: when the dwell timer fires with a matching tab URL, both storage
calls of the visit step succeed, the capture succeeds, and the version put
would succeed, a new `PageVersion` is persisted if and only if either no
version is stored under the URL key or the newest stored version (ordered by
`capturedAt` descending) has a hash different from the computed digest; when
the newest stored hash equals the digest, the `pages` store is unchanged. -/
theorem timer_fire_dedup_store (env : FireEnv) (tabId : Nat) (url : String)
    (s : SWState) (db : DB) (snap : Snapshot)
    (ht : env.tabUrl = some url) (hu : url ≠ "")
    (hv : env.putVisitOk = true) (hp : env.purgeOk = true)
    (hs : shouldArchiveUrl env.settings url = true)
    (hc : env.capture = some snap) (hw : env.putVersionOk = true) :
    ((timerFire env tabId url s db).versionStored = true ↔
      ¬ (getVersionsByUrlKey (toUrlKey url) db).head?.map PageVersion.hash
          = some (env.hashOf snap.html)) ∧
    ((getVersionsByUrlKey (toUrlKey url) db).head?.map PageVersion.hash
        = some (env.hashOf snap.html) →
      (timerFire env tabId url s db).db.pages = db.pages) := by
  have h := timerFire_proceed env tabId url s db ht hu
  rw [logVisit_eq_of_ok env tabId url db hv hp] at h
  dsimp only at h
  have hpages : (purgeVisitsOlderThan (env.now - DAYS30MS)
      (putVisit (visitRecord env tabId url) db)).pages = db.pages := by
    rw [purge_pages, putVisit_pages]
  by_cases hdup : (getVersionsByUrlKey (toUrlKey url) db).head?.map PageVersion.hash
      = some (env.hashOf snap.html)
  · have hdup2 : (getVersionsByUrlKey (toUrlKey url)
        (purgeVisitsOlderThan (env.now - DAYS30MS)
          (putVisit (visitRecord env tabId url) db))).head?.map PageVersion.hash
        = some (env.hashOf snap.html) := by
      rw [getVersionsByUrlKey_congr _ _ db hpages]
      exact hdup
    rw [archive_eq_dup env url _ snap hc hdup2] at h
    rw [h]
    exact ⟨iff_of_false (by simp) (not_not_intro hdup), fun _ => hpages⟩
  · have hdup2 : ¬ (getVersionsByUrlKey (toUrlKey url)
        (purgeVisitsOlderThan (env.now - DAYS30MS)
          (putVisit (visitRecord env tabId url) db))).head?.map PageVersion.hash
        = some (env.hashOf snap.html) := by
      rw [getVersionsByUrlKey_congr _ _ db hpages]
      exact hdup
    rw [archive_eq_new env url _ snap hs hc hw hdup2] at h
    rw [h]
    exact ⟨iff_of_true rfl hdup, fun hcontra => absurd hcontra hdup⟩

/-- **C2** witness: the deduplication theorem at an empty store — no prior
version exists, so a new `PageVersion` is persisted. -/
theorem timer_fire_dedup_store_witness :
    ((timerFire dupEnv 2 "https://example.com/" staleTabState ⟨[], []⟩).versionStored = true ↔
      ¬ (getVersionsByUrlKey (toUrlKey "https://example.com/") (⟨[], []⟩ : DB)).head?.map
          PageVersion.hash = some (dupEnv.hashOf "<html>A</html>")) ∧
    ((getVersionsByUrlKey (toUrlKey "https://example.com/") (⟨[], []⟩ : DB)).head?.map
        PageVersion.hash = some (dupEnv.hashOf "<html>A</html>") →
      (timerFire dupEnv 2 "https://example.com/" staleTabState ⟨[], []⟩).db.pages
        = (⟨[], []⟩ : DB).pages) :=
  timer_fire_dedup_store dupEnv 2 "https://example.com/" staleTabState ⟨[], []⟩
    ⟨"T", "<html>A</html>"⟩ rfl (by decide) rfl rfl (by decide) rfl rfl

/-! ## C10 — Policy is re-evaluated at fire time -/

/-- **C10**: the URL policy is consulted a second time inside
`archiveIfChanged`, after the visit is appended: if the settings read at
fire time make the URL ineligible, the sequence still appends a visit row
but attempts no capture and writes no `PageVersion` (the `pages` store is
returned unchanged). -/
theorem timer_fire_reevaluates_policy (env : FireEnv) (tabId : Nat) (url : String)
    (s : SWState) (db : DB)
    (ht : env.tabUrl = some url) (hu : url ≠ "")
    (hv : env.putVisitOk = true) (hp : env.purgeOk = true)
    (hs : shouldArchiveUrl env.settings url = false) :
    (timerFire env tabId url s db).visitAppended = true ∧
    (timerFire env tabId url s db).captureAttempted = false ∧
    (timerFire env tabId url s db).versionStored = false ∧
    (timerFire env tabId url s db).db.pages = db.pages ∧
    visitRecord env tabId url ∈ (timerFire env tabId url s db).db.visits := by
  have h := timerFire_proceed env tabId url s db ht hu
  rw [logVisit_eq_of_ok env tabId url db hv hp] at h
  dsimp only at h
  rw [archive_skip_policy env url _ hs] at h
  rw [h]
  refine ⟨rfl, rfl, rfl, ?_, ?_⟩
  · exact (purge_pages _ _).trans (putVisit_pages _ _)
  · have hm := logVisit_mem env tabId url db hv
    rw [logVisit_eq_of_ok env tabId url db hv hp] at hm
    exact hm

/-- A fire-time environment whose settings were flipped to disabled during
the dwell window. -/
def disabledEnv : FireEnv :=
  ⟨some "https://example.com/", ⟨false, 2000, [], []⟩, some ⟨"T", "<html>A</html>"⟩, id,
   "visit-3", "version-3", 3000, true, true, true⟩

/-- **C10** witness: the re-evaluation theorem at a concrete environment in
which archiving was disabled globally during the dwell window. -/
theorem timer_fire_reevaluates_policy_witness :
    (timerFire disabledEnv 3 "https://example.com/" staleTabState ⟨[], []⟩).visitAppended
      = true ∧
    (timerFire disabledEnv 3 "https://example.com/" staleTabState ⟨[], []⟩).captureAttempted
      = false ∧
    (timerFire disabledEnv 3 "https://example.com/" staleTabState ⟨[], []⟩).versionStored
      = false ∧
    (timerFire disabledEnv 3 "https://example.com/" staleTabState ⟨[], []⟩).db.pages
      = (⟨[], []⟩ : DB).pages ∧
    visitRecord disabledEnv 3 "https://example.com/" ∈
      (timerFire disabledEnv 3 "https://example.com/" staleTabState ⟨[], []⟩).db.visits :=
  timer_fire_reevaluates_policy disabledEnv 3 "https://example.com/" staleTabState ⟨[], []⟩
    rfl (by decide) rfl rfl (by decide)

/-! ## C6 — Wildcard compilation of the documented example pattern -/

/-- **C6** (evaluation at the failing input): the pattern
`*://*.github.com/*/settings*` does not compile and therefore matches
nothing.  The escape class of `wildcardToRegExp` omits `*`, so no `\*`
two-character sequence ever reaches the second replacement and every `*` of
the pattern survives as a bare regex quantifier; the leading `*` then has
nothing to repeat, `new RegExp` throws, and `urlMatchesPatterns` discards
the pattern as malformed — contradicting the claimed wildcard semantics
under which the pattern must match `https://foo.github.com/bar/settings/x`. -/
theorem wildcard_pattern_star_is_malformed :
    wildcardToRegExp "*://*.github.com/*/settings*" = none ∧
    urlMatchesPatterns "https://foo.github.com/bar/settings/x"
      ["*://*.github.com/*/settings*"] = false ∧
    urlMatchesPatterns "https://foo.github.com/bar/other"
      ["*://*.github.com/*/settings*"] = false := by
  decide

/-! ## C7 — Malformed patterns are skipped, never fatal -/

theorem urlMatchesPatterns_cons (url p : String) (rest : List String) :
    urlMatchesPatterns url (p :: rest) =
      ((match wildcardToRegExp p with
        | none => false
        | some items => rmatch items url.toList) || urlMatchesPatterns url rest) := rfl

theorem urlMatchesPatterns_filter (url : String) : ∀ patterns : List String,
    urlMatchesPatterns url (patterns.filter (fun p => (wildcardToRegExp p).isSome))
      = urlMatchesPatterns url patterns
  | [] => rfl
  | p :: rest => by
    rcases hc : wildcardToRegExp p with _ | items
    · rw [List.filter_cons_of_neg (by simp [hc])]
      rw [urlMatchesPatterns_filter url rest]
      rw [urlMatchesPatterns_cons, hc]
      simp
    · rw [List.filter_cons_of_pos (by simp [hc])]
      rw [urlMatchesPatterns_cons, urlMatchesPatterns_cons]
      rw [urlMatchesPatterns_filter url rest]

theorem urlMatchesPatterns_all_none (url : String) : ∀ patterns : List String,
    (∀ p ∈ patterns, wildcardToRegExp p = none) → urlMatchesPatterns url patterns = false
  | [], _ => rfl
  | p :: rest, hall => by
    rw [urlMatchesPatterns_cons, hall p (List.mem_cons_self p rest)]
    rw [urlMatchesPatterns_all_none url rest (fun q hq => hall q (List.mem_cons_of_mem p hq))]
    rfl

/-- **C7**: a pattern whose compilation fails is never treated as a match
and never makes the check throw — `urlMatchesPatterns` is a total function
whose result depends only on the patterns that compile, and a list
consisting solely of malformed patterns matches no URL. -/
theorem malformed_patterns_ignored (url : String) (patterns : List String) :
    urlMatchesPatterns url patterns =
      urlMatchesPatterns url (patterns.filter (fun p => (wildcardToRegExp p).isSome)) ∧
    ((∀ p ∈ patterns, wildcardToRegExp p = none) →
      urlMatchesPatterns url patterns = false) :=
  ⟨(urlMatchesPatterns_filter url patterns).symm, urlMatchesPatterns_all_none url patterns⟩

/-- **C7** witness: two malformed patterns (a leading `*` and a double
quantifier) match nothing. -/
theorem malformed_patterns_ignored_witness :
    urlMatchesPatterns "https://example.com/" ["*", "a**"] = false :=
  (malformed_patterns_ignored "https://example.com/" ["*", "a**"]).2 (by decide)

/-! ## C8 — Purge deletes strictly-older visits only -/

/-- **C8**: `purgeVisitsOlderThan(cutoff)` deletes exactly the visit rows
with `visitAt` strictly below the cutoff: the surviving rows are a sublist
(retained unchanged, in order) of the original, a row survives iff its
`visitAt` is `≥ cutoff` (so a row with `visitAt = cutoff` is retained), and
the `pages` store is not modified. -/
theorem purge_exclusive_boundary (db : DB) (cutoffMs : Nat) :
    (purgeVisitsOlderThan cutoffMs db).pages = db.pages ∧
    (purgeVisitsOlderThan cutoffMs db).visits.Sublist db.visits ∧
    ∀ v : Visit, v ∈ (purgeVisitsOlderThan cutoffMs db).visits ↔
      v ∈ db.visits ∧ cutoffMs ≤ v.visitAt := by
  refine ⟨rfl, List.filter_sublist _, ?_⟩
  intro v
  unfold purgeVisitsOlderThan inUpperBoundOpen
  simp [List.mem_filter, Nat.not_lt]

/-- A visit store holding one row exactly at the cutoff and one strictly
below it. -/
def purgeDB : DB :=
  ⟨[], [⟨"va", "https://a.example/", "https://a.example/", 5, "", none⟩,
        ⟨"vb", "https://b.example/", "https://b.example/", 4, "", none⟩]⟩

/-- **C8** witness: at cutoff 5, the boundary row with `visitAt = 5` is
retained. -/
theorem purge_exclusive_boundary_witness :
    (⟨"va", "https://a.example/", "https://a.example/", 5, "", none⟩ : Visit) ∈
        (purgeVisitsOlderThan 5 purgeDB).visits ↔
      (⟨"va", "https://a.example/", "https://a.example/", 5, "", none⟩ : Visit) ∈
        purgeDB.visits ∧ 5 ≤ 5 :=
  (purge_exclusive_boundary purgeDB 5).2.2
    ⟨"va", "https://a.example/", "https://a.example/", 5, "", none⟩

/-! ## C9 — Toggling a host is an involution on the sorted denylist -/

theorem mem_dedupFirst : ∀ (l : List String) (x : String), x ∈ dedupFirst l ↔ x ∈ l
  | [], _ => by rw [dedupFirst]
  | a :: l, x => by
    rw [dedupFirst, List.mem_cons, List.mem_cons]
    constructor
    · rintro (rfl | h)
      · exact Or.inl rfl
      · exact Or.inr (List.mem_of_mem_filter ((mem_dedupFirst _ x).mp h))
    · rintro (rfl | h)
      · exact Or.inl rfl
      · by_cases hx : x = a
        · exact Or.inl hx
        · exact Or.inr ((mem_dedupFirst _ x).mpr (List.mem_filter.mpr ⟨h, by simp [hx]⟩))
  termination_by l _ => l.length
  decreasing_by
    all_goals
      simp only [List.length_cons]
      exact Nat.lt_succ_of_le (List.length_filter_le _ _)

theorem dedupFirst_nodup : ∀ l : List String, (dedupFirst l).Nodup
  | [] => by rw [dedupFirst]; exact List.nodup_nil
  | a :: l => by
    rw [dedupFirst]
    refine List.nodup_cons.mpr ⟨?_, dedupFirst_nodup _⟩
    intro hmem
    have := (mem_dedupFirst _ a).mp hmem
    simp at this
  termination_by l => l.length
  decreasing_by
    simp only [List.length_cons]
    exact Nat.lt_succ_of_le (List.length_filter_le _ _)

theorem dedupFirst_eq_self : ∀ l : List String, l.Nodup → dedupFirst l = l
  | [], _ => by rw [dedupFirst]
  | a :: l, h => by
    rw [dedupFirst]
    have h1 : a ∉ l := (List.nodup_cons.mp h).1
    have h2 : l.Nodup := (List.nodup_cons.mp h).2
    have hf : l.filter (· ≠ a) = l := List.filter_eq_self.mpr fun x hx => by
      simp only [decide_eq_true_eq]
      intro heq
      exact h1 (heq ▸ hx)
    rw [hf, dedupFirst_eq_self l h2]

theorem insertionSort_sorted_lt (l : List String) (hnd : l.Nodup) :
    (List.insertionSort (· ≤ ·) l).Sorted (· < ·) :=
  (List.sorted_insertionSort _ l).lt_of_le ((List.perm_insertionSort _ l).symm.nodup hnd)

/-- `handleToggleHost` on a duplicate-free denylist and a non-empty host:
the stored list is the sorted toggle of the original. -/
theorem handleToggleHost_hosts (host : String) (s : Settings)
    (hnd : s.disabledHosts.Nodup) (hh : host ≠ "") :
    (handleToggleHost host s).disabledHosts =
      List.insertionSort (· ≤ ·)
        (if host ∈ s.disabledHosts then s.disabledHosts.erase host
         else s.disabledHosts ++ [host]) := by
  unfold handleToggleHost
  dsimp only
  rw [dedupFirst_eq_self _ hnd, if_neg hh]

theorem handleToggleHost_patterns (host : String) (s : Settings) :
    (handleToggleHost host s).disabledUrlPatterns = s.disabledUrlPatterns := rfl

/-- **C9**: starting from settings whose `disabledHosts` is strictly sorted
(sorted and duplicate-free), toggling a URL whose host component parses (a
non-empty host) twice restores `disabledHosts` exactly, and after each
single application both `disabledHosts` and `disabledUrlPatterns` are again
duplicate-free and sorted. -/
theorem toggle_host_roundtrip (s : Settings) (host : String) (hh : host ≠ "")
    (hsort : s.disabledHosts.Sorted (· < ·))
    (hpat : s.disabledUrlPatterns.Sorted (· < ·)) :
    (handleToggleHost host (handleToggleHost host s)).disabledHosts = s.disabledHosts ∧
    ((handleToggleHost host s).disabledHosts.Sorted (· < ·) ∧
     (handleToggleHost host s).disabledUrlPatterns.Sorted (· < ·)) ∧
    ((handleToggleHost host (handleToggleHost host s)).disabledHosts.Sorted (· < ·) ∧
     (handleToggleHost host (handleToggleHost host s)).disabledUrlPatterns.Sorted (· < ·)) := by
  have hnd : s.disabledHosts.Nodup := hsort.nodup
  have hle : s.disabledHosts.Sorted (· ≤ ·) := hsort.le_of_lt
  have h1 := handleToggleHost_hosts host s hnd hh
  by_cases hmem : host ∈ s.disabledHosts
  · rw [if_pos hmem] at h1
    have n1 : (s.disabledHosts.erase host).Nodup := hnd.erase host
    have hperm1 : (handleToggleHost host s).disabledHosts ~ s.disabledHosts.erase host := by
      rw [h1]
      exact List.perm_insertionSort _ _
    have ns1 : (handleToggleHost host s).disabledHosts.Nodup := hperm1.symm.nodup n1
    have hnotmem : host ∉ (handleToggleHost host s).disabledHosts := fun hcon =>
      hnd.not_mem_erase (hperm1.subset hcon)
    have h2 := handleToggleHost_hosts host (handleToggleHost host s) ns1 hh
    rw [if_neg hnotmem] at h2
    have hperm2 : (handleToggleHost host (handleToggleHost host s)).disabledHosts
        ~ s.disabledHosts := by
      rw [h2]
      calc List.insertionSort (· ≤ ·) ((handleToggleHost host s).disabledHosts ++ [host])
          ~ (handleToggleHost host s).disabledHosts ++ [host] := List.perm_insertionSort _ _
        _ ~ (host :: (handleToggleHost host s).disabledHosts) :=
            List.perm_append_singleton _ _
        _ ~ (host :: s.disabledHosts.erase host) := hperm1.cons host
        _ ~ s.disabledHosts := (List.perm_cons_erase hmem).symm
    have heq2 : (handleToggleHost host (handleToggleHost host s)).disabledHosts
        = s.disabledHosts := by
      refine List.eq_of_perm_of_sorted hperm2 ?_ hle
      rw [h2]
      exact List.sorted_insertionSort _ _
    refine ⟨heq2, ⟨?_, hpat⟩, ⟨heq2 ▸ hsort, hpat⟩⟩
    rw [h1]
    exact insertionSort_sorted_lt _ n1
  · rw [if_neg hmem] at h1
    have n1 : (s.disabledHosts ++ [host]).Nodup := by
      rw [List.nodup_append]
      exact ⟨hnd, List.nodup_singleton host, by simp [hmem]⟩
    have hperm1 : (handleToggleHost host s).disabledHosts ~ s.disabledHosts ++ [host] := by
      rw [h1]
      exact List.perm_insertionSort _ _
    have ns1 : (handleToggleHost host s).disabledHosts.Nodup := hperm1.symm.nodup n1
    have hmem1 : host ∈ (handleToggleHost host s).disabledHosts :=
      hperm1.symm.subset (List.mem_append_right _ (List.mem_singleton.mpr rfl))
    have h2 := handleToggleHost_hosts host (handleToggleHost host s) ns1 hh
    rw [if_pos hmem1] at h2
    have herase : (s.disabledHosts ++ [host]).erase host = s.disabledHosts := by
      rw [List.erase_append_right _ hmem, List.erase_cons_head]
      exact List.append_nil _
    have hperm2 : (handleToggleHost host (handleToggleHost host s)).disabledHosts
        ~ s.disabledHosts := by
      rw [h2]
      calc List.insertionSort (· ≤ ·) ((handleToggleHost host s).disabledHosts.erase host)
          ~ (handleToggleHost host s).disabledHosts.erase host := List.perm_insertionSort _ _
        _ ~ (s.disabledHosts ++ [host]).erase host := hperm1.erase host
        _ = s.disabledHosts := herase
    have heq2 : (handleToggleHost host (handleToggleHost host s)).disabledHosts
        = s.disabledHosts := by
      refine List.eq_of_perm_of_sorted hperm2 ?_ hle
      rw [h2]
      exact List.sorted_insertionSort _ _
    refine ⟨heq2, ⟨?_, hpat⟩, ⟨heq2 ▸ hsort, hpat⟩⟩
    rw [h1]
    exact insertionSort_sorted_lt _ n1

/-- Settings with a sorted two-host denylist. -/
def twoHostSettings : Settings := ⟨true, 2000, ["a.example", "b.example"], []⟩

/-- **C9** witness: toggling `c.example` twice on a concrete sorted denylist
restores it, and each intermediate list is strictly sorted. -/
theorem toggle_host_roundtrip_witness :
    (handleToggleHost "c.example" (handleToggleHost "c.example" twoHostSettings)).disabledHosts
      = twoHostSettings.disabledHosts ∧
    ((handleToggleHost "c.example" twoHostSettings).disabledHosts.Sorted (· < ·) ∧
     (handleToggleHost "c.example" twoHostSettings).disabledUrlPatterns.Sorted (· < ·)) ∧
    ((handleToggleHost "c.example"
        (handleToggleHost "c.example" twoHostSettings)).disabledHosts.Sorted (· < ·) ∧
     (handleToggleHost "c.example"
        (handleToggleHost "c.example" twoHostSettings)).disabledUrlPatterns.Sorted (· < ·)) :=
  toggle_host_roundtrip twoHostSettings "c.example" (by decide)
    (by simp [twoHostSettings]; decide) (by simp [twoHostSettings])

end PW
